import Mathlib

/-!
Shallow embedding of `jupyter_ai_magics/model_id.py`.

The Python source defines a value object `ModelId` with two string fields
`provider_id` and `model_name`, a class method `from_str` that resolves an
alias table and splits the (resolved) string on its first colon, a `__str__`
method reconstructing `provider_id + ":" + model_name`, and an exception
`InvalidModelId` whose message is `f"Invalid model ID: {message}."`.

The alias table `MODEL_ID_ALIASES` is imported from a module that is not part
of the excerpt; following the specification, the parser is modelled as a
function of the raw string and the alias table.  A Python `dict[str, str]` is
modelled as an association list with first-match lookup (dict keys are unique,
so first-match lookup agrees with dict lookup on any table a dict can hold).

Python semantics embedded faithfully:
  * `MODEL_ID_ALIASES.get(model_id, None) or model_id` — `None` and the empty
    string are falsy, every other string is truthy;
  * `":" not in model_id` — note the source tests the RAW input here, not the
    resolved string;
  * `resolved_model_id.split(":", 1)` — at most one split, at the first colon;
    when no colon is present the result is a one-element list and the tuple
    unpacking `provider_id, model_name = ...` raises `ValueError`.
-/

/-- The `ModelId` value object: `provider_id` and `model_name` fields. -/
structure ModelId where
  provider_id : String
  model_name : String
deriving DecidableEq, Repr

/-- The errors `from_str` can raise: the `InvalidModelId` exception (carrying
its formatted message, as set by `InvalidModelId.__init__`), and the Python
`ValueError` raised by tuple unpacking when `split` returns one element. -/
inductive ParseError where
  | invalidModelId (message : String)
  | valueError
deriving DecidableEq, Repr

/-- The alias table (`MODEL_ID_ALIASES`): a finite string-to-string mapping. -/
def AliasTable : Type := List (String × String)

/-- Python `dict.get(key, None)`: first-match association-list lookup. -/
def aliasGet (t : AliasTable) (k : String) : Option String :=
  match t with
  | [] => none
  | (k₀, v₀) :: rest => if k = k₀ then some v₀ else aliasGet rest k

/-- `MODEL_ID_ALIASES.get(model_id, None) or model_id`: Python `or` falls
through on falsy values, and the only falsy strings are `None` (absent key)
and the empty string. -/
def resolveAlias (t : AliasTable) (model_id : String) : String :=
  match aliasGet t model_id with
  | some v => if v = "" then model_id else v
  | none => model_id

/-- Python `":" in s` on a string. -/
def containsColon (s : String) : Bool :=
  s.data.contains ':'

/-- Python `s.split(":", 1)`: the characters before the first colon, and
`some` of the characters after it, or `none` when the string has no colon
(in which case Python returns the one-element list `[s]`). -/
def splitFirst : List Char → List Char × Option (List Char)
  | [] => ([], none)
  | c :: rest =>
    if c = ':' then ([], some rest)
    else
      let p := splitFirst rest
      (c :: p.1, p.2)

/-- The message built by `InvalidModelId.__init__`:
`f"Invalid model ID: {message}."`. -/
def invalidModelIdMessage (message : String) : String :=
  "Invalid model ID: " ++ message ++ "."

/-- `ModelId.from_str`, embedded line by line from the source:

```python
resolved_model_id = MODEL_ID_ALIASES.get(model_id, None) or model_id
if ":" not in model_id:
    raise InvalidModelId(resolved_model_id)
provider_id, model_name = resolved_model_id.split(":", 1)
return ModelId(provider_id=provider_id, model_name=model_name)
```

The colon test is on `model_id` (the raw input), exactly as in the source;
the split is on `resolved_model_id`.  When the split yields no second
component the tuple unpacking raises `ValueError`. -/
def from_str (t : AliasTable) (model_id : String) : Except ParseError ModelId :=
  let resolved_model_id := resolveAlias t model_id
  if containsColon model_id then
    match splitFirst resolved_model_id.data with
    | (provider_id, some model_name) => .ok ⟨⟨provider_id⟩, ⟨model_name⟩⟩
    | (_, none) => .error .valueError
  else
    .error (.invalidModelId (invalidModelIdMessage resolved_model_id))

/-- `ModelId.__str__`: `self.provider_id + ":" + self.model_name`. -/
def toStr (m : ModelId) : String :=
  m.provider_id ++ ":" ++ m.model_name

/-- Specification-side view: the substring before the first colon. -/
def beforeFirstColon (s : String) : String :=
  ⟨s.data.takeWhile (fun c => !(c == ':'))⟩

/-- Specification-side view: the substring after the first colon. -/
def afterFirstColon (s : String) : String :=
  ⟨(s.data.dropWhile (fun c => !(c == ':'))).tail⟩

deriving instance DecidableEq for Except

/-! ### Helper lemmas about `splitFirst` and `containsColon` -/

theorem containsColon_iff (s : String) : containsColon s = true ↔ ':' ∈ s.data := by
  simp [containsColon]

theorem splitFirst_of_not_mem (s : List Char) (h : ':' ∉ s) : splitFirst s = (s, none) := by
  induction s with
  | nil => rfl
  | cons c rest ih =>
    have hc : ¬ (c = ':') := fun hh => h (hh ▸ List.mem_cons_self c rest)
    have hr : ':' ∉ rest := fun hm => h (List.mem_cons_of_mem c hm)
    simp [splitFirst, hc, ih hr]

theorem splitFirst_of_mem (s : List Char) (h : ':' ∈ s) :
    splitFirst s =
      (s.takeWhile (fun c => !(c == ':')), some ((s.dropWhile (fun c => !(c == ':'))).tail)) := by
  induction s with
  | nil => cases h
  | cons c rest ih =>
    by_cases hc : c = ':'
    · subst hc
      simp [splitFirst]
    · have hr : ':' ∈ rest := by
        rcases List.mem_cons.mp h with h₀ | h₀
        · exact absurd h₀.symm hc
        · exact h₀
      simp [splitFirst, hc, ih hr]

theorem splitFirst_fst_no_colon (s : List Char) : ':' ∉ (splitFirst s).1 := by
  induction s with
  | nil => simp [splitFirst]
  | cons c rest ih =>
    by_cases hc : c = ':'
    · simp [splitFirst, hc]
    · simp only [splitFirst, if_neg hc]
      intro hmem
      rcases List.mem_cons.mp hmem with h₀ | h₀
      · exact hc h₀.symm
      · exact ih h₀

theorem splitFirst_append (a b : List Char) (h : ':' ∉ a) :
    splitFirst (a ++ ':' :: b) = (a, some b) := by
  induction a with
  | nil => simp [splitFirst]
  | cons c rest ih =>
    have hc : ¬ (c = ':') := fun hh => h (hh ▸ List.mem_cons_self c rest)
    have hr : ':' ∉ rest := fun hm => h (List.mem_cons_of_mem c hm)
    simp [splitFirst, hc, ih hr]

/-- Shape of a successful parse: the raw input contained a colon and the two
fields are the two halves `split` produced from the resolved string. -/
theorem from_str_ok_elim {t : AliasTable} {s : String} {id : ModelId}
    (h : from_str t s = .ok id) :
    containsColon s = true ∧
      splitFirst (resolveAlias t s).data = (id.provider_id.data, some id.model_name.data) := by
  by_cases hc : containsColon s = true
  · refine ⟨hc, ?_⟩
    rcases hsp : splitFirst (resolveAlias t s).data with ⟨a, ob⟩
    cases ob with
    | none =>
      simp [from_str, hc, hsp] at h
    | some b =>
      simp only [from_str, hc, if_true, hsp] at h
      cases h
      rfl
  · simp [from_str, hc] at h

theorem from_str_ok_intro {t : AliasTable} {s : String} (a b : List Char)
    (hc : containsColon s = true)
    (hsp : splitFirst (resolveAlias t s).data = (a, some b)) :
    from_str t s = .ok ⟨⟨a⟩, ⟨b⟩⟩ := by
  simp [from_str, hc, hsp]

/-! ### Claims -/

/-- Claim C1 (code evaluation at the failing input): the claim says that for an
alias key whose mapped value is `"p:n"`, parsing succeeds regardless of whether
the key itself contains a colon.  The source instead tests `":" not in
model_id` on the RAW input, so the colon-free alias key `"gpt4"` mapped to
`"openai:gpt-4"` is rejected — and the exception message even carries the
perfectly well-formed resolved string. -/
theorem c1_alias_key_without_colon_rejected :
    from_str [("gpt4", "openai:gpt-4")] "gpt4"
      = .error (.invalidModelId "Invalid model ID: openai:gpt-4.") := rfl

/-- Claim C2 (code evaluation at the failing inputs): the claim says the parser
fails exactly when the alias-resolved string lacks a colon, and only with
`InvalidModelId`.  The source tests the raw input instead, so (a) a colon-free
key resolving to a colon-containing value still raises `InvalidModelId`, and
(b) a colon-containing key resolving to a colon-free value slips past the test
and the tuple unpacking of `split(":", 1)` raises `ValueError`. -/
theorem c2_error_condition_tests_raw_input :
    from_str [("k", "p:n")] "k" = .error (.invalidModelId "Invalid model ID: p:n.") ∧
    from_str [("a:b", "nocolon")] "a:b" = .error .valueError :=
  ⟨rfl, rfl⟩

/-- Claim C3: for every string containing a colon and absent from the alias
table, parsing succeeds with `provider_id` the substring before the first
colon and `model_name` the substring after it (later colons kept, no
trimming, empty `model_name` allowed). -/
theorem c3_unaliased_parse_splits_at_first_colon (t : AliasTable) (s : String)
    (hc : containsColon s = true) (ha : aliasGet t s = none) :
    from_str t s = .ok ⟨beforeFirstColon s, afterFirstColon s⟩ := by
  have hres : resolveAlias t s = s := by simp [resolveAlias, ha]
  have hmem : ':' ∈ s.data := (containsColon_iff s).mp hc
  have hsp : splitFirst (resolveAlias t s).data =
      (s.data.takeWhile (fun c => !(c == ':')),
        some ((s.data.dropWhile (fun c => !(c == ':'))).tail)) := by
    rw [hres]
    exact splitFirst_of_mem s.data hmem
  exact from_str_ok_intro _ _ hc hsp

theorem c3_witness :
    containsColon "openai:gpt4" = true ∧ aliasGet [] "openai:gpt4" = none ∧
    from_str [] "openai:gpt4"
      = .ok ⟨beforeFirstColon "openai:gpt4", afterFirstColon "openai:gpt4"⟩ :=
  ⟨by decide, rfl, c3_unaliased_parse_splits_at_first_colon [] "openai:gpt4" (by decide) rfl⟩

/-- Claim C4: whenever the parser fails with `InvalidModelId`, the exception
message is exactly `"Invalid model ID: <resolved>."` built from the
alias-resolved string, not from the raw input. -/
theorem c4_invalid_message_carries_resolved (t : AliasTable) (s m : String)
    (h : from_str t s = .error (.invalidModelId m)) :
    m = invalidModelIdMessage (resolveAlias t s) := by
  by_cases hc : containsColon s = true
  · rcases hsp : splitFirst (resolveAlias t s).data with ⟨a, ob⟩
    cases ob with
    | none => simp [from_str, hc, hsp] at h
    | some b => simp [from_str, hc, hsp] at h
  · simp [from_str, hc] at h
    exact h.symm

theorem c4_witness : "Invalid model ID: nocolon." = invalidModelIdMessage (resolveAlias [] "nocolon") :=
  c4_invalid_message_carries_resolved [] "nocolon" "Invalid model ID: nocolon." rfl

/-- Claim C5: an alias entry whose value is the empty string behaves like an
absent key — resolution falls back to the raw input (Python `or` semantics). -/
theorem c5_empty_alias_value_falls_back (t : AliasTable) (s : String)
    (h : aliasGet t s = some "") :
    resolveAlias t s = s := by
  simp [resolveAlias, h]

theorem c5_witness : resolveAlias [("k", "")] "k" = "k" :=
  c5_empty_alias_value_falls_back [("k", "")] "k" rfl

/-- Any identifier the parser returns has the two halves `splitFirst` produced
from the resolved string, stated over destructured fields for reuse. -/
theorem parsed_fields_split {t : AliasTable} {s : String} {id : ModelId}
    (h : from_str t s = .ok id) :
    ':' ∉ id.provider_id.data ∧
      (toStr id).data = id.provider_id.data ++ ':' :: id.model_name.data := by
  obtain ⟨hc, hsp⟩ := from_str_ok_elim h
  constructor
  · have h₀ := splitFirst_fst_no_colon (resolveAlias t s).data
    rw [hsp] at h₀
    exact h₀
  · have hcolon : (":" : String).data = [':'] := rfl
    simp [toStr, String.data_append, hcolon]

/-- Claim C6 counterexample: the round trip fails as stated when the alias
table maps the identifier's own string representation to some other value.
`"a:b"` resolves to `"c:d"` and parses to `⟨c, d⟩`; reparsing its string
representation `"c:d"` resolves again, to `"e:f"`, and yields a different
identifier. -/
theorem c6_counterexample_realiasing :
    from_str [("a:b", "c:d"), ("c:d", "e:f")] "a:b" = .ok ⟨"c", "d"⟩ ∧
    toStr ⟨"c", "d"⟩ = "c:d" ∧
    from_str [("a:b", "c:d"), ("c:d", "e:f")] (toStr ⟨"c", "d"⟩) = .ok ⟨"e", "f"⟩ ∧
    ModelId.mk "e" "f" ≠ ModelId.mk "c" "d" :=
  ⟨rfl, rfl, rfl, by decide⟩

/-- Claim C6 (amended): for every identifier produced by the parser, its string
representation is `provider_id + ":" + model_name`, and — provided alias
resolution leaves that string representation unchanged — parsing it again
yields the identifier back exactly. -/
theorem c6_toStr_reparse_roundtrip (t : AliasTable) (s : String) (id : ModelId)
    (h : from_str t s = .ok id)
    (hres : resolveAlias t (toStr id) = toStr id) :
    toStr id = id.provider_id ++ ":" ++ id.model_name ∧ from_str t (toStr id) = .ok id := by
  refine ⟨rfl, ?_⟩
  obtain ⟨hp, hdata⟩ := parsed_fields_split h
  have hc : containsColon (toStr id) = true := by
    rw [containsColon_iff, hdata]
    exact List.mem_append.mpr (Or.inr (List.mem_cons_self _ _))
  have hsp : splitFirst (resolveAlias t (toStr id)).data
      = (id.provider_id.data, some id.model_name.data) := by
    rw [hres, hdata]
    exact splitFirst_append _ _ hp
  have hok := from_str_ok_intro _ _ hc hsp
  rcases id with ⟨⟨pd⟩, ⟨nd⟩⟩
  exact hok

theorem c6_witness :
    toStr ⟨"x", "y"⟩ = (ModelId.mk "x" "y").provider_id ++ ":" ++ (ModelId.mk "x" "y").model_name ∧
    from_str [] (toStr ⟨"x", "y"⟩) = .ok ⟨"x", "y"⟩ :=
  c6_toStr_reparse_roundtrip [] "x:y" ⟨"x", "y"⟩ rfl rfl

/-- Claim C7 counterexample: with `provider = "p"` (colon-free) and
`name = "n"`, formatting gives `"p:n"`; if the alias table happens to contain
`"p:n"` as a key, reparsing resolves the alias and yields a different
identifier, so the round trip fails as stated. -/
theorem c7_counterexample_formatted_string_is_alias_key :
    containsColon "p" = false ∧
    from_str [("p:n", "q:m")] (toStr ⟨"p", "n"⟩) = .ok ⟨"q", "m"⟩ ∧
    ModelId.mk "q" "m" ≠ ModelId.mk "p" "n" :=
  ⟨rfl, rfl, by decide⟩

/-- Claim C7 (amended): for every `(provider, name)` pair where the provider
contains no colon and — additionally — alias resolution leaves the formatted
string unchanged, parsing the formatted string succeeds and returns the pair. -/
theorem c7_format_parse_roundtrip (t : AliasTable) (p n : String)
    (hp : containsColon p = false)
    (hres : resolveAlias t (toStr ⟨p, n⟩) = toStr ⟨p, n⟩) :
    from_str t (toStr ⟨p, n⟩) = .ok ⟨p, n⟩ := by
  have hpm : ':' ∉ p.data := fun hm => by
    rw [(containsColon_iff p).mpr hm] at hp
    cases hp
  have hcolon : (":" : String).data = [':'] := rfl
  have hdata : (toStr ⟨p, n⟩).data = p.data ++ ':' :: n.data := by
    simp [toStr, String.data_append, hcolon]
  have hc : containsColon (toStr ⟨p, n⟩) = true := by
    rw [containsColon_iff, hdata]
    exact List.mem_append.mpr (Or.inr (List.mem_cons_self _ _))
  have hsp : splitFirst (resolveAlias t (toStr ⟨p, n⟩)).data = (p.data, some n.data) := by
    rw [hres, hdata]
    exact splitFirst_append _ _ hpm
  have hok := from_str_ok_intro _ _ hc hsp
  rcases p with ⟨pd⟩
  rcases n with ⟨nd⟩
  exact hok

theorem c7_witness :
    containsColon "openai" = false ∧
    from_str [] (toStr ⟨"openai", "gpt4"⟩) = .ok ⟨"openai", "gpt4"⟩ :=
  ⟨by decide, c7_format_parse_roundtrip [] "openai" "gpt4" (by decide) rfl⟩

/-- Claim C8: `__str__` is total (a Lean function) and returns
`provider_id + ":" + model_name` for every identifier. -/
theorem c8_toStr_total_concatenation (m : ModelId) :
    toStr m = m.provider_id ++ ":" ++ m.model_name := rfl

/-- Claim C9: for a fixed alias table, `from_str` is a deterministic pure
function of its inputs — equal raw strings give equal results (the embedding
as a Lean function also witnesses the absence of side effects). -/
theorem c9_from_str_deterministic (t : AliasTable) (s₁ s₂ : String) (h : s₁ = s₂) :
    from_str t s₁ = from_str t s₂ := by
  rw [h]

theorem c9_witness : from_str [] "x:y" = from_str [] "x:y" :=
  c9_from_str_deterministic [] "x:y" "x:y" rfl

/-- Claim C10: every identifier the parser returns has a `provider_id` free of
colons — all colons of the resolved string after the first one end up in
`model_name`. -/
theorem c10_provider_has_no_colon (t : AliasTable) (s : String) (id : ModelId)
    (h : from_str t s = .ok id) :
    containsColon id.provider_id = false := by
  obtain ⟨hp, _⟩ := parsed_fields_split h
  cases hcb : containsColon id.provider_id with
  | false => rfl
  | true => exact absurd ((containsColon_iff _).mp hcb) hp

theorem c10_witness : containsColon (ModelId.mk "a" "b:c").provider_id = false :=
  c10_provider_has_no_colon [] "a:b:c" ⟨"a", "b:c"⟩ rfl
